import Mathlib

/-
Verification of the upload/transcription orchestration core of the
audio-recorder repository.

The embedding models, from the source:
  - src/src/services/r2UploadService.ts
      extractTimestampFromKey, loadHistory, deleteAudio, uploadAudio,
      getSignedUrl, the constructor credential check, and the
      substring-based upload error classification;
  - the main-process IPC handlers (audio-data, transcribe-audio) and the
    config entries from src/src/config/config.ts.

Asynchronous store / network operations are modelled by outcome
parameters (an environment record per call); the in-memory upload
history and the object store content are passed explicitly.  Timer
state (the 500 ms progress interval and the 60 s upload timeout) is
modelled by boolean fields recording whether the timer is still
registered at the moment the modelled call settles.
-/

namespace AudioRec

/-! ### Character and string helpers (kernel-friendly, on `List Char`) -/

def isDigitCh (c : Char) : Bool := '0' ≤ c && c ≤ '9'

def isLowerAlnum (c : Char) : Bool := ('a' ≤ c && c ≤ 'z') || isDigitCh c

/-- Substring test: `containsChars needle hay` is true iff `needle`
occurs contiguously in `hay`.  Models the JS `String.prototype.includes`. -/
def containsChars (needle : List Char) : List Char → Bool
  | [] => needle.isEmpty
  | c :: t => needle.isPrefixOf (c :: t) || containsChars needle t

def containsStr (hay needle : String) : Bool := containsChars needle.data hay.data

def startsWithStr (s pre : String) : Bool := pre.data.isPrefixOf s.data

def endsWithStr (s suf : String) : Bool := suf.data.isSuffixOf s.data

/-- Split on a single separator character; models the JS
`String.prototype.split` with a one-character separator. -/
def splitOnChar (sep : Char) : List Char → List (List Char)
  | [] => [[]]
  | c :: s =>
    let groups := splitOnChar sep s
    if c = sep then [] :: groups
    else
      match groups with
      | [] => [[c]]
      | g :: gs => (c :: g) :: gs

/-- Remove the first occurrence of a character; models the JS
`String.prototype.replace(c, "")` with a one-character pattern. -/
def removeFirst (t : Char) : List Char → List Char
  | [] => []
  | c :: s => if c = t then s else c :: removeFirst t s

/-! ### The key timestamp pattern

`extractTimestampFromKey` (r2UploadService.ts lines 116-162) matches the
regular expression

  `(\d{4}-\d{2}-\d{2}T\d{2}-\d{2}-\d{2}(?:-\d{3})?Z)-[a-z0-9]+`

against the key.  The matcher below implements that pattern directly:
leftmost match, greedy optional millisecond group tried first, with
backtracking to the no-millisecond alternative.  Since nothing follows
`[a-z0-9]+` in the pattern and the capture group ends before it, matching
a single trailing `[a-z0-9]` character is equivalent to the greedy `+`. -/

def matchDigitsN : Nat → List Char → Option (List Char × List Char)
  | 0, s => some ([], s)
  | _ + 1, [] => none
  | n + 1, c :: s =>
    if isDigitCh c then
      match matchDigitsN n s with
      | some (ds, r) => some (c :: ds, r)
      | none => none
    else none

def matchChar (c : Char) : List Char → Option (List Char)
  | [] => none
  | x :: s => if x = c then some s else none

def matchAlnumOne : List Char → Option (List Char)
  | [] => none
  | c :: s => if isLowerAlnum c then some s else none

/-- Try the full pattern at the head of `s0`; returns capture group 1
(the timestamp substring, `Z` included) on success. -/
def matchTimestampAt (s0 : List Char) : Option (List Char) := do
  let (y, s1) ← matchDigitsN 4 s0
  let s2 ← matchChar '-' s1
  let (mo, s3) ← matchDigitsN 2 s2
  let s4 ← matchChar '-' s3
  let (d, s5) ← matchDigitsN 2 s4
  let s6 ← matchChar 'T' s5
  let (h, s7) ← matchDigitsN 2 s6
  let s8 ← matchChar '-' s7
  let (mi, s9) ← matchDigitsN 2 s8
  let s10 ← matchChar '-' s9
  let (se, s11) ← matchDigitsN 2 s10
  let stem := y ++ ['-'] ++ mo ++ ['-'] ++ d ++ ['T'] ++ h ++ ['-'] ++ mi ++ ['-'] ++ se
  let tryTail : List Char → List Char → Option (List Char) := fun g rest => do
    let r1 ← matchChar '-' rest
    let _ ← matchAlnumOne r1
    pure g
  let withMs : Option (List Char) := do
    let t1 ← matchChar '-' s11
    let (ms, t2) ← matchDigitsN 3 t1
    let t3 ← matchChar 'Z' t2
    tryTail (stem ++ ['-'] ++ ms ++ ['Z']) t3
  match withMs with
  | some g => some g
  | none => do
    let t1 ← matchChar 'Z' s11
    tryTail (stem ++ ['Z']) t1

/-- Leftmost match of the timestamp pattern, as `String.prototype.match`
finds it. -/
def findTimestamp : List Char → Option (List Char)
  | [] => none
  | c :: s =>
    match matchTimestampAt (c :: s) with
    | some g => some g
    | none => findTimestamp s

/-! ### JS `Date` validity

Models `!isNaN(new Date(s).getTime())` for the ISO-8601 UTC strings the
reformatting step can produce: `YYYY-MM-DDTHH:MM:SSZ` or
`YYYY-MM-DDTHH:MM:SS.mmmZ` with calendar range checks (month 1-12, day
within the month, hour at most 23 with `24:00:00` also accepted, minute
and second at most 59), as V8 validates date-time strings. -/

def toNatDigits (l : List Char) : Nat := l.foldl (fun n c => n * 10 + (c.toNat - 48)) 0

def daysInMonth (y m : Nat) : Nat :=
  if m = 2 then (if (y % 4 = 0 && y % 100 ≠ 0) || y % 400 = 0 then 29 else 28)
  else if m = 4 || m = 6 || m = 9 || m = 11 then 30
  else 31

def isValidInstantChars (s : List Char) : Bool :=
  (do
    let (y, r1) ← matchDigitsN 4 s
    let r2 ← matchChar '-' r1
    let (mo, r3) ← matchDigitsN 2 r2
    let r4 ← matchChar '-' r3
    let (d, r5) ← matchDigitsN 2 r4
    let r6 ← matchChar 'T' r5
    let (h, r7) ← matchDigitsN 2 r6
    let r8 ← matchChar ':' r7
    let (mi, r9) ← matchDigitsN 2 r8
    let r10 ← matchChar ':' r9
    let (se, r11) ← matchDigitsN 2 r10
    let r12 ←
      match matchChar '.' r11 with
      | some t => do
        let (_, t2) ← matchDigitsN 3 t
        pure t2
      | none => pure r11
    let r13 ← matchChar 'Z' r12
    let Y := toNatDigits y
    let M := toNatDigits mo
    let D := toNatDigits d
    let H := toNatDigits h
    let Mi := toNatDigits mi
    let Se := toNatDigits se
    if r13 = [] && 1 ≤ M && M ≤ 12 && 1 ≤ D && D ≤ daysInMonth Y M &&
        (H ≤ 23 || (H = 24 && Mi = 0 && Se = 0)) && Mi ≤ 59 && Se ≤ 59 then
      pure ()
    else none).isSome

def isValidInstant (s : String) : Bool := isValidInstantChars s.data

/-! ### extractTimestampFromKey (r2UploadService.ts lines 116-162)

The source wraps the whole body in try/catch and returns
`new Date().toISOString()` (the `now` argument here) from the catch;
every `throw` inside the body therefore maps to returning `now`, so the
model is a total function — the method never raises to its caller.
`List.getD _ _ []` models an out-of-range JS index (the resulting
malformed string fails the date validity check exactly as the JS
`undefined` interpolation would). -/

def extractTimestampFromKey (key now : String) : String :=
  match findTimestamp key.data with
  | none => now
  | some ts =>
    let parts := splitOnChar 'T' ts
    let datePart := parts.getD 0 []
    let timePart := parts.getD 1 []
    if datePart.isEmpty || timePart.isEmpty then now
    else
      let formattedTime :=
        if (splitOnChar '-' timePart).length > 1 then
          let tc := splitOnChar '-' timePart
          if tc.length > 3 then
            tc.getD 0 [] ++ [':'] ++ tc.getD 1 [] ++ [':'] ++ tc.getD 2 [] ++ ['.'] ++
              removeFirst 'Z' (tc.getD 3 []) ++ ['Z']
          else
            tc.getD 0 [] ++ [':'] ++ tc.getD 1 [] ++ [':'] ++ tc.getD 2 []
        else timePart
      let iso := datePart ++ ['T'] ++ formattedTime
      if isValidInstantChars iso then String.mk iso else now

/-! ### Data model -/

/-- `AudioFile` (r2UploadService.ts lines 12-18).  `url` is `""` when the
optional field is absent or signed-URL generation failed. -/
structure AudioFile where
  key : String
  timestamp : String
  size : Nat
  url : String
  transcription : Option String
deriving DecidableEq, Repr

/-- The object store content: association list from key to stored byte
length (object bodies are irrelevant to every claim). -/
abbrev Store := List (String × Nat)

inductive Stage
  | preparing
  | uploading
  | processing
  | complete
deriving DecidableEq, Repr

/-- One `upload-progress` event `{stage, progress, message, key?}`. -/
structure ProgressEvent where
  stage : Stage
  progress : Int
  message : String
  key : Option String
deriving DecidableEq, Repr

/-! ### Upload error classification (r2UploadService.ts lines 441-478) -/

def classifyUploadError (bucket msg : String) : String :=
  if containsStr msg "AccessDenied" then
    "Access denied to R2 bucket '" ++ bucket ++ "'. Check your credentials and permissions."
  else if containsStr msg "NoSuchBucket" then
    "Bucket '" ++ bucket ++ "' does not exist. Please verify the bucket name."
  else if containsStr msg "timeout" || containsStr msg "timed out" then
    "Upload timed out. Please check your network connection."
  else if containsStr msg "network" || containsStr msg "ENOTFOUND" then
    "Network error. Please check your internet connection."
  else if containsStr msg "CORS" || containsStr msg "cors" then
    "CORS error. Your R2 bucket may need CORS configuration."
  else "Failed to upload audio to R2: " ++ msg

/-! ### uploadAudio (r2UploadService.ts lines 199-479)

The `putObject` write is raced against a 500 ms synthetic-progress
interval promise and a 60 s timeout (lines 267-315).  The environment
says how the write settles: `resolves n` / `rejects msg n` mean the write
settles after `n` interval ticks have fired (`n ≥ 120` places the
settlement after the 60 s timeout, in which case the race has already
rejected with the timeout error and the late settlement is discarded);
`hangs` means the write never settles.

Timer bookkeeping, read off the source:
  - the tick interval is cleared only inside `uploadPromise.then` and
    `.catch` (lines 288, 301), so it is still registered when the call
    settles by timeout;
  - the 60 s `setTimeout` (lines 307-312) is never cleared on any path.
`intervalActive` / `timeoutActive` record whether each timer is still
registered at the moment the modelled call settles. -/

inductive PutOutcome
  | resolves (ticks : Nat)
  | rejects (msg : String) (ticks : Nat)
  | hangs
deriving DecidableEq, Repr

/-- Outcome of the fire-and-forget transcription kick-off `fetch`
(lines 380-419): HTTP ok, HTTP non-ok, or the fetch throwing. -/
inductive KickoffOutcome
  | ok
  | badStatus
  | throws
deriving DecidableEq, Repr

structure UploadEnv where
  bucketName : String
  folder : String
  nowIso : String
  uniqueId : String
  signedUrl : String
  workerUrl : String
  kickoff : KickoffOutcome
  put : PutOutcome
deriving DecidableEq, Repr

structure UploadResult where
  result : Except String String
  events : List ProgressEvent
  history : List AudioFile
  store : Store
  putRequests : Nat
  intervalActive : Bool
  timeoutActive : Bool

def exceptOk {ε α : Type} : Except ε α → Bool
  | .ok _ => true
  | .error _ => false

/-- `now.toISOString().replace(/[:.]/g, "-")` (line 221). -/
def sanitizeIso (s : String) : String :=
  String.mk (s.data.map fun c => if c = ':' || c = '.' then '-' else c)

/-- The key assigned at line 223. -/
def assignedKey (env : UploadEnv) : String :=
  env.folder ++ "/" ++ sanitizeIso env.nowIso ++ "-" ++ env.uniqueId ++ ".webm"

/-- One synthetic tick event (lines 275-282). -/
def tickEv (key : String) (p : Nat) : ProgressEvent :=
  { stage := .uploading, progress := (p : Int),
    message := "Uploading to R2... (" ++ toString p ++ "%)", key := some key }

/-- The events emitted by the 500 ms interval (lines 272-284): from
current progress `p`, each tick emits `p + 5` while `p < 50`. -/
def ticksEmitted (key : String) : Nat → Nat → List ProgressEvent
  | _, 0 => []
  | p, n + 1 =>
    if p < 50 then tickEv key (p + 5) :: ticksEmitted key (p + 5) n
    else ticksEmitted key p n

/-- The event emitted by `uploadPromise.then` when the write really
resolves (lines 289-296). -/
def uploadDoneEv (key : String) : ProgressEvent :=
  { stage := .uploading, progress := 50, message := "Upload to R2 completed", key := some key }

/-- Events up to and including the `uploading` start event
(lines 212-218, 232-239, 258-265). -/
def preEvents (key : String) : List ProgressEvent :=
  [ { stage := .preparing, progress := 0, message := "Preparing audio for upload...", key := none },
    { stage := .preparing, progress := 25, message := "Audio prepared successfully", key := some key },
    { stage := .uploading, progress := 25, message := "Starting upload to R2...", key := some key } ]

/-- Events of the processing and complete stages after a successful
write (lines 317-438).  `getSignedUrl` catches internally and returns
`""` on failure (lines 184-197), so the `urlError` branch at line 338 is
unreachable and the 75-progress event always carries
"URL generation complete". -/
def processingEvents (key workerUrl : String) (k : KickoffOutcome) : List ProgressEvent :=
  [ { stage := .processing, progress := 50, message := "Generating signed URL...", key := some key },
    { stage := .processing, progress := 75, message := "URL generation complete", key := some key },
    { stage := .processing, progress := 85, message := "Added to audio history", key := some key } ]
  ++ (if workerUrl ≠ "" then
      [ { stage := .processing, progress := 90, message := "Starting automatic transcription...", key := some key },
        { stage := .processing, progress := 95,
          message :=
            match k with
            | .ok => "Transcription in progress"
            | .badStatus => "Transcription skipped"
            | .throws => "Transcription skipped due to error",
          key := some key } ]
    else
      [ { stage := .processing, progress := 95, message := "Processing completed", key := some key } ])
  ++ [ { stage := .complete, progress := 100, message := "Upload successfully completed", key := some key } ]

def uploadAudio (audioData : List Nat) (history : List AudioFile) (store : Store)
    (env : UploadEnv) : UploadResult :=
  if audioData.length = 0 then
    { result := .error "Empty audio data provided", events := [], history := history,
      store := store, putRequests := 0, intervalActive := false, timeoutActive := false }
  else if env.bucketName = "" then
    { result := .error "R2 bucket name not configured", events := [], history := history,
      store := store, putRequests := 0, intervalActive := false, timeoutActive := false }
  else
    let key := assignedKey env
    let pre := preEvents key
    match env.put with
    | .resolves n =>
      if n < 120 then
        let newFile : AudioFile :=
          { key := key, timestamp := env.nowIso, size := audioData.length,
            url := env.signedUrl, transcription := none }
        { result := .ok key
          events := pre ++ ticksEmitted key 25 n
            ++ [uploadDoneEv key]
            ++ processingEvents key env.workerUrl env.kickoff
          history := newFile :: history
          store := (key, audioData.length) :: store
          putRequests := 1
          intervalActive := false
          timeoutActive := true }
      else
        -- the write succeeds only after the 60 s timeout: the race has already
        -- rejected with the timeout error, so the late success is discarded
        -- (the object lands in the store but no history entry and no returned
        -- key); the late `.then` callback still emits the final uploading/50
        -- event and clears the interval, after the call has settled.
        { result := .error (classifyUploadError env.bucketName "Upload timed out after 60 seconds")
          events := pre ++ ticksEmitted key 25 120 ++ [uploadDoneEv key]
          history := history
          store := (key, audioData.length) :: store
          putRequests := 1
          intervalActive := true
          timeoutActive := false }
    | .rejects msg n =>
      if n < 120 then
        { result := .error (classifyUploadError env.bucketName msg)
          events := pre ++ ticksEmitted key 25 n
          history := history, store := store, putRequests := 1
          intervalActive := false, timeoutActive := true }
      else
        { result := .error (classifyUploadError env.bucketName "Upload timed out after 60 seconds")
          events := pre ++ ticksEmitted key 25 120
          history := history, store := store, putRequests := 1
          intervalActive := true, timeoutActive := false }
    | .hangs =>
      { result := .error (classifyUploadError env.bucketName "Upload timed out after 60 seconds")
        events := pre ++ ticksEmitted key 25 120
        history := history, store := store, putRequests := 1
        intervalActive := true, timeoutActive := false }

/-! ### loadHistory (r2UploadService.ts lines 75-114)

`listObjectsV2` is modelled by its outcome: on success the returned
`Contents` are the store entries under the `{folder}/` prefix, capped at
`MaxKeys: 100`; `noContents` models a response whose `Contents` field is
absent (the `if (response.Contents)` guard then leaves the history
untouched); `err` models a rejected listing, caught at line 110, which
returns the previously held `uploadHistory` unchanged.  `getSignedUrl`
never rejects (it catches internally and returns `""`), so the
`Promise.all` at line 91 never rejects; `signedUrlOf` models its
per-key return value. -/

inductive ListOutcome
  | ok
  | noContents
  | err (msg : String)

structure HistEnv where
  folder : String
  nowIso : String
  signedUrlOf : String → String
  listing : ListOutcome

/-- Lexicographic comparison on characters, standing in for the
epoch-millisecond comparison `new Date(b.timestamp) - new Date(a.timestamp)`
of the source sort: ISO-8601 UTC strings of the shapes produced here
compare lexicographically consistently with their instants, and every
claim proved about `loadHistory` is a membership claim, invariant under
the ordering. -/
def lexLe : List Char → List Char → Bool
  | [], _ => true
  | _ :: _, [] => false
  | a :: s, b :: t => a.toNat < b.toNat || (a.toNat = b.toNat && lexLe s t)

def insertByTsDesc (f : AudioFile) : List AudioFile → List AudioFile
  | [] => [f]
  | g :: r => if lexLe g.timestamp.data f.timestamp.data then f :: g :: r
              else g :: insertByTsDesc f r

def sortByTsDesc : List AudioFile → List AudioFile
  | [] => []
  | f :: r => insertByTsDesc f (sortByTsDesc r)

def loadHistory (history : List AudioFile) (store : Store) (env : HistEnv) : List AudioFile :=
  match env.listing with
  | .err _ => history
  | .noContents => history
  | .ok =>
    let listed := (store.filter fun kv => startsWithStr kv.1 (env.folder ++ "/")).take 100
    let audioFiles := listed.filter fun kv =>
      endsWithStr kv.1 ".webm" && !(containsStr kv.1 "/transcriptions/")
    let newHist := audioFiles.map fun kv =>
      { key := kv.1, timestamp := extractTimestampFromKey kv.1 env.nowIso, size := kv.2,
        url := env.signedUrlOf kv.1, transcription := none : AudioFile }
    sortByTsDesc newHist

/-! ### deleteAudio (r2UploadService.ts lines 168-182)

`deleteObject` succeeding means the object is no longer in the store;
only then is the in-memory history filtered.  A rejected delete is
re-thrown (line 180) with the history and store untouched. -/

inductive DeleteOutcome
  | ok
  | err (msg : String)

def deleteAudio (key : String) (history : List AudioFile) (store : Store) :
    DeleteOutcome → Except String (List AudioFile × Store)
  | .ok => .ok (history.filter (fun f => f.key != key), store.filter (fun kv => kv.1 != key))
  | .err m => .error ("Failed to delete audio file: " ++ m)

/-! ### Configuration checks

`R2Config` (config.ts lines 13-19): every field is a `String`, with `""`
for an unset environment variable (so JS falsiness on a field is
equality with `""`).

The constructor (r2UploadService.ts lines 32-37) iterates the required
field names in order and throws on the FIRST missing one; the outer
catch re-wraps the message (line 71).  The `audio-data` IPC handler
(main process, lines 80-91) filters `Object.entries(r2Config)` — which
enumerates in declaration order — down to the non-`workerUrl` keys with
falsy values, i.e. exactly the required entries that are empty. -/

structure R2Config where
  accountId : String
  accessKeyId : String
  secretAccessKey : String
  bucketName : String
  workerUrl : String
deriving DecidableEq, Repr

def requiredEntries (c : R2Config) : List (String × String) :=
  [("accountId", c.accountId), ("accessKeyId", c.accessKeyId),
   ("secretAccessKey", c.secretAccessKey), ("bucketName", c.bucketName)]

/-- The constructor credential check, wrapped error message included. -/
def serviceInit (c : R2Config) : Except String Unit :=
  match (requiredEntries c).find? (fun kv => kv.2 = "") with
  | some kv => .error ("R2 service initialization failed: R2 configuration is missing " ++ kv.1)
  | none => .ok ()

/-- The `missingConfigValues` keys computed by the `audio-data` handler. -/
def missingConfigKeys (c : R2Config) : List String :=
  ((requiredEntries c).filter (fun kv => kv.2 = "")).map (fun kv => kv.1)

def joinComma : List String → String
  | [] => ""
  | [s] => s
  | s :: r => s ++ ", " ++ joinComma r

/-- The status message the `audio-data` handler sends before reaching the
upload call, `none` when the handler proceeds to upload.  `serviceReady`
is whether `initializeR2Service` completed without throwing, i.e.
whether `serviceInit` succeeded on the process configuration. -/
def audioDataPrecheck (dataLen : Nat) (serviceReady : Bool) (c : R2Config) : Option String :=
  if dataLen = 0 then some "Error: Invalid audio data received"
  else if serviceReady = false then some "Error: R2 upload service not initialized"
  else
    match missingConfigKeys c with
    | [] => none
    | missing => some ("Missing R2 configuration: " ++ joinComma missing ++ ". Please set these in .env file")

/-! ### The transcribe-audio handler (main process, lines 170-307)

The synthetic feed: `progress` starts at 10, the 3 s interval adds 5 per
tick and sends only while the value is at most 95 (lines 211-217).
Ticks can fire while awaiting the `fetch` AND while awaiting
`response.json()`, because `clearProgressInterval` runs only at
line 272 (success, after the body is parsed) and line 285 (the catch).
On the success path the handler sends progress 100 ("Finalizing
transcription...") at line 262, BEFORE parsing the body; on every
failure path it clears the interval and then sends the -1 sentinel. -/

structure TransEvent where
  progress : Int
  message : String
deriving DecidableEq, Repr

/-- Synthetic tick run: from current progress `p`, fire `n` ticks; each
adds 5 and sends while the new value is at most 95.  Returns the final
value of the `progress` variable and the sent events. -/
def transTicks : Nat → Nat → Nat × List TransEvent
  | p, 0 => (p, [])
  | p, n + 1 =>
    let r := transTicks (p + 5) n
    if p + 5 ≤ 95 then
      (r.1, { progress := ((p + 5 : Nat) : Int),
              message := if p + 5 < 50 then "Transcribing audio..."
                         else "Processing transcription results..." } :: r.2)
    else (r.1, r.2)

/-- How the transcription `fetch` settles.  `bodyTicks` counts interval
ticks that fire while `response.json()` is being awaited; for `ok`,
`body` is the parse result (`.error m` models `response.json()`
throwing, `.ok t` the parsed `transcription` field, absent allowed). -/
inductive TransFetch
  | netErr (msg : String)
  | httpErr (status : Nat) (bodyTicks : Nat) (errBody : Option (Option String))
  | ok (bodyTicks : Nat) (body : Except String (Option String))

structure TransEnv where
  serviceReady : Bool
  workerUrl : String
  key : String
  fetchTicks : Nat
  fetch : TransFetch

structure TransResult where
  events : List TransEvent
  success : Bool
  statusError : Option String
  transcription : Option String
  intervalCleared : Bool

def evInit : TransEvent := { progress := 0, message := "Initiating transcription request..." }

def evConnect : TransEvent := { progress := 10, message := "Connecting to transcription service..." }

def evFinal : TransEvent := { progress := 100, message := "Finalizing transcription..." }

def evFailed : TransEvent := { progress := -1, message := "Transcription failed" }

def transcribeAudio (env : TransEnv) : TransResult :=
  if env.serviceReady = false then
    -- guard throws before the interval is started (line 198); the catch's
    -- clearProgressInterval is a no-op and the -1 sentinel is sent
    { events := [evFailed], success := false,
      statusError := some "R2 upload service not initialized",
      transcription := none, intervalCleared := true }
  else if env.workerUrl = "" then
    { events := [evFailed], success := false,
      statusError := some "Worker URL not configured. Please set R2_WORKER_URL in .env file",
      transcription := none, intervalCleared := true }
  else
    let tf := transTicks 10 env.fetchTicks
    let base : List TransEvent := [evInit, evConnect] ++ tf.2
    let fail : List TransEvent → String → TransResult := fun evs msg =>
      { events := evs ++ [evFailed], success := false,
        statusError := some msg, transcription := none, intervalCleared := true }
    match env.fetch with
    | .netErr m => fail base ("Failed to connect to transcription service: " ++ m)
    | .httpErr status bodyTicks errBody =>
      let bodyEvs := (transTicks tf.1 bodyTicks).2
      match errBody with
      | none => fail (base ++ bodyEvs) ("Transcription failed with status " ++ toString status)
      | some errField =>
        let errorMessage :=
          match errField with
          | some m => if m = "" then "Transcription failed" else m
          | none => "Transcription failed"
        if containsStr errorMessage "API key not configured" ||
            containsStr errorMessage "Invalid API key" ||
            containsStr errorMessage "Authentication" then
          fail (base ++ bodyEvs)
            "OpenAI API key not configured or invalid. Please configure it in the Cloudflare worker."
        else fail (base ++ bodyEvs) errorMessage
    | .ok bodyTicks body =>
      let bodyEvs := (transTicks tf.1 bodyTicks).2
      match body with
      | .error m => fail (base ++ [evFinal] ++ bodyEvs) m
      | .ok t =>
        { events := base ++ [evFinal] ++ bodyEvs,
          success := true, statusError := none, transcription := t, intervalCleared := true }

/-! ### Concrete instances used by witnesses and counterexamples -/

def envResolveEx : UploadEnv :=
  { bucketName := "bkt", folder := "audio", nowIso := "2024-03-05T10:20:30.123Z",
    uniqueId := "abcd1234", signedUrl := "https://signed", workerUrl := "",
    kickoff := .ok, put := .resolves 0 }

def envRejectEx : UploadEnv :=
  { bucketName := "bkt", folder := "audio", nowIso := "2024-03-05T10:20:30.123Z",
    uniqueId := "abcd1234", signedUrl := "", workerUrl := "",
    kickoff := .ok, put := .rejects "AccessDenied" 2 }

def envRejectFiveEx : UploadEnv :=
  { bucketName := "bkt", folder := "audio", nowIso := "2024-03-05T10:20:30.123Z",
    uniqueId := "abcd1234", signedUrl := "", workerUrl := "",
    kickoff := .ok, put := .rejects "boom" 5 }

def envHangEx : UploadEnv :=
  { bucketName := "bkt", folder := "audio", nowIso := "2024-03-05T10:20:30.123Z",
    uniqueId := "abcd1234", signedUrl := "", workerUrl := "",
    kickoff := .ok, put := .hangs }

def fileEx : AudioFile :=
  { key := "audio/a.webm", timestamp := "2024-03-05T10:20:30.123Z", size := 3,
    url := "", transcription := none }

def histEnvOkEx : HistEnv :=
  { folder := "audio", nowIso := "2026-10-11T00:00:00.000Z",
    signedUrlOf := fun _ => "u", listing := .ok }

def histEnvErrEx : HistEnv :=
  { folder := "audio", nowIso := "2026-10-11T00:00:00.000Z",
    signedUrlOf := fun _ => "u", listing := .err "NetworkingError" }

def badConfigEx : R2Config :=
  { accountId := "", accessKeyId := "", secretAccessKey := "s", bucketName := "b",
    workerUrl := "" }

def transEnvOkEx : TransEnv :=
  { serviceReady := true, workerUrl := "http://w", key := "audio/a.webm",
    fetchTicks := 2, fetch := .ok 0 (.ok (some "hello world")) }

def transEnvFailEx : TransEnv :=
  { serviceReady := true, workerUrl := "http://w", key := "audio/a.webm",
    fetchTicks := 1, fetch := .netErr "ECONNREFUSED" }

def transEnvLateBodyEx : TransEnv :=
  { serviceReady := true, workerUrl := "http://w", key := "audio/a.webm",
    fetchTicks := 0, fetch := .ok 1 (.ok (some "hi")) }

/-! ### Claim C1 -/

/-- Claim C1: for every `uploadAudio` call in which the `putObject` write
itself fails, no Recording with the newly assigned key is added to the
in-memory upload history (the history is returned unchanged, and the
store too), and the call does not complete as a successful upload of
that key.  In the source this rests on `Promise.race` settling with the
`uploadPromise` rejection (which occurs strictly before the
`progressUpdates` promise can resolve, since its resolution is a `.catch`
reaction to that very rejection), so control reaches the catch block at
line 441 and the history append at line 358 is never executed. -/
theorem uploadAudio_put_failure_not_recorded
    (data : List Nat) (history : List AudioFile) (store : Store) (env : UploadEnv)
    (msg : String) (n : Nat) (h : env.put = .rejects msg n) :
    (uploadAudio data history store env).history = history ∧
    exceptOk (uploadAudio data history store env).result = false ∧
    (uploadAudio data history store env).store = store := by
  unfold uploadAudio
  rw [h]
  split_ifs with hd hb
  · simp [exceptOk]
  · simp [exceptOk]
  · dsimp only
    split_ifs <;> simp [exceptOk]

theorem uploadAudio_put_failure_not_recorded_w :
    (uploadAudio [1] [fileEx] [("audio/a.webm", 3)] envRejectEx).history = [fileEx] ∧
    exceptOk (uploadAudio [1] [fileEx] [("audio/a.webm", 3)] envRejectEx).result = false ∧
    (uploadAudio [1] [fileEx] [("audio/a.webm", 3)] envRejectEx).store = [("audio/a.webm", 3)] :=
  uploadAudio_put_failure_not_recorded [1] [fileEx] [("audio/a.webm", 3)] envRejectEx
    "AccessDenied" 2 rfl

/-! ### Claim C3 -/

/-- Claim C3: an `uploadAudio` call with an empty audio buffer always
fails with the invalid-input error and performs zero store writes — the
guard at lines 200-202 throws before any `putObject` request is built or
issued. -/
theorem uploadAudio_empty_rejected
    (data : List Nat) (history : List AudioFile) (store : Store) (env : UploadEnv)
    (h : data.length = 0) :
    (uploadAudio data history store env).result = .error "Empty audio data provided" ∧
    (uploadAudio data history store env).putRequests = 0 ∧
    (uploadAudio data history store env).store = store := by
  unfold uploadAudio
  rw [h]
  simp

theorem uploadAudio_empty_rejected_w :
    (uploadAudio [] [] [] envResolveEx).result = .error "Empty audio data provided" ∧
    (uploadAudio [] [] [] envResolveEx).putRequests = 0 ∧
    (uploadAudio [] [] [] envResolveEx).store = [] :=
  uploadAudio_empty_rejected [] [] [] envResolveEx rfl

/-! ### Claim C10 -/

/-- Claim C10: `loadHistory` never rejects — it is a total function of
its outcome environment because the only operations that can reject
(`listObjectsV2`) are caught at line 110, while `getSignedUrl` and
`extractTimestampFromKey` catch internally — and when the listing fails
it returns the previously held in-memory history unchanged. -/
theorem loadHistory_error_returns_prior
    (history : List AudioFile) (store : Store) (env : HistEnv) (msg : String)
    (h : env.listing = .err msg) :
    loadHistory history store env = history := by
  unfold loadHistory
  rw [h]

theorem loadHistory_error_returns_prior_w :
    loadHistory [fileEx] [("audio/a.webm", 3)] histEnvErrEx = [fileEx] :=
  loadHistory_error_returns_prior [fileEx] [("audio/a.webm", 3)] histEnvErrEx
    "NetworkingError" rfl

/-! ### Claim C5 -/

/-- Claim C5: timestamp extraction from a key is total and always yields
a valid instant.  The model is a total Lean function because every
`throw` in the source body is caught by the enclosing try/catch (line
158), which returns the current time; the successful branch returns its
reformatted string only after the source's own `isNaN(new Date(...))`
validity check. -/
theorem extractTimestampFromKey_total_valid (key now : String)
    (h : isValidInstant now = true) :
    isValidInstant (extractTimestampFromKey key now) = true := by
  unfold extractTimestampFromKey
  cases hf : findTimestamp key.data with
  | none => exact h
  | some ts =>
    simp only []
    split_ifs
    all_goals first
      | exact h
      | (unfold isValidInstant; assumption)

theorem extractTimestampFromKey_total_valid_w :
    isValidInstant "2026-10-11T00:00:00.000Z" = true ∧
    isValidInstant
      (extractTimestampFromKey "audio/2024-03-05T10-20-30-123Z-abcd1234.webm"
        "2026-10-11T00:00:00.000Z") = true :=
  ⟨by rfl,
   extractTimestampFromKey_total_valid "audio/2024-03-05T10-20-30-123Z-abcd1234.webm"
     "2026-10-11T00:00:00.000Z" (by rfl)⟩

/-! ### Claim C2 -/

lemma mem_insertByTsDesc {a f : AudioFile} {l : List AudioFile} :
    a ∈ insertByTsDesc f l ↔ a = f ∨ a ∈ l := by
  induction l with
  | nil => simp [insertByTsDesc]
  | cons g r ih =>
    simp only [insertByTsDesc]
    split
    · simp only [List.mem_cons]
    · simp only [List.mem_cons, ih]
      tauto

lemma mem_sortByTsDesc {a : AudioFile} {l : List AudioFile} :
    a ∈ sortByTsDesc l ↔ a ∈ l := by
  induction l with
  | nil => simp [sortByTsDesc]
  | cons f r ih => simp [sortByTsDesc, mem_insertByTsDesc, ih]

/-- Claim C2: a `deleteAudio(key)` call that returns without error has
removed the object from the store and the matching entry from the
in-memory history together, and a history load issued right after never
lists the deleted key (whether the fresh listing succeeds — the store no
longer holds the key — or fails — the kept in-memory history no longer
holds it). -/
theorem deleteAudio_removes_everywhere
    (key : String) (history : List AudioFile) (store : Store) (out : DeleteOutcome)
    (h2 : List AudioFile) (s2 : Store) (env : HistEnv)
    (h : deleteAudio key history store out = .ok (h2, s2)) :
    (h2.all fun f => f.key != key) = true ∧
    (s2.all fun kv => kv.1 != key) = true ∧
    ((loadHistory h2 s2 env).all fun f => f.key != key) = true := by
  cases out with
  | err m => simp [deleteAudio] at h
  | ok =>
    simp only [deleteAudio, Except.ok.injEq, Prod.mk.injEq] at h
    obtain ⟨hh, hs⟩ := h
    subst hh
    subst hs
    refine ⟨?_, ?_, ?_⟩
    · rw [List.all_eq_true]
      intro f hf
      exact (List.mem_filter.mp hf).2
    · rw [List.all_eq_true]
      intro kv hkv
      exact (List.mem_filter.mp hkv).2
    · cases hl : env.listing with
      | err m =>
        unfold loadHistory
        rw [hl]
        rw [List.all_eq_true]
        intro f hf
        exact (List.mem_filter.mp hf).2
      | noContents =>
        unfold loadHistory
        rw [hl]
        rw [List.all_eq_true]
        intro f hf
        exact (List.mem_filter.mp hf).2
      | ok =>
        unfold loadHistory
        rw [hl]
        dsimp only
        rw [List.all_eq_true]
        intro f hf
        rw [mem_sortByTsDesc] at hf
        simp only [List.mem_map] at hf
        obtain ⟨kv, hkv, rfl⟩ := hf
        have h1 : kv ∈ store.filter fun kv => kv.1 != key := by
          have h2 := (List.mem_filter.mp hkv).1
          exact List.filter_subset' _ (List.take_subset _ _ h2)
        exact (List.mem_filter.mp h1).2

theorem deleteAudio_removes_everywhere_w :
    (([] : List AudioFile).all fun f => f.key != "audio/a.webm") = true ∧
    (([] : Store).all fun kv => kv.1 != "audio/a.webm") = true ∧
    ((loadHistory [] [] histEnvOkEx).all fun f => f.key != "audio/a.webm") = true :=
  deleteAudio_removes_everywhere "audio/a.webm" [fileEx] [("audio/a.webm", 3)] .ok
    [] [] histEnvOkEx rfl

/-! ### Synthetic upload ticks: closed forms -/

def tickList (key : String) (m : Nat) : List ProgressEvent :=
  ([30, 35, 40, 45, 50].take m).map (tickEv key)

lemma ticksEmitted_ge50 (key : String) (m : Nat) : ticksEmitted key 50 m = [] := by
  induction m with
  | zero => rfl
  | succ m ih => simp [ticksEmitted, ih]

lemma ticksEmitted_25 (key : String) (n : Nat) :
    ticksEmitted key 25 n = tickList key (min n 5) := by
  rcases n with _ | _ | _ | _ | _ | n
  · rfl
  · rfl
  · rfl
  · rfl
  · rfl
  · have hmin : min (n + 1 + 1 + 1 + 1 + 1) 5 = 5 := by omega
    rw [hmin]
    show ticksEmitted key 25 (n + 5) = tickList key 5
    simp [ticksEmitted, ticksEmitted_ge50, tickList, tickEv]

/-! ### Claim C6 (the claim fails on the code)

Reading lines 267-315: the tick interval is cleared only by the
`uploadPromise.then` / `.catch` callbacks, so when the call settles via
the 60 s timeout the interval is still registered; and the 60 s
`setTimeout` itself is never cleared anywhere, so it is still registered
after every upload that settles before 60 s — including successful ones.
The transcription handler, by contrast, does clear its interval on both
its success (line 272) and failure (line 285) paths. -/

/-- Claim C6 fails on the code: a successful `uploadAudio` call leaves
the 60-second timeout timer registered after the call settles, and a
call that settles by timeout leaves the 500 ms tick interval registered;
the transcription requestor's synthetic interval, by contrast, is
cleared on both its terminal paths. -/
theorem uploadAudio_timer_leak :
    exceptOk (uploadAudio [1] [] [] envResolveEx).result = true ∧
    (uploadAudio [1] [] [] envResolveEx).timeoutActive = true ∧
    (uploadAudio [1] [] [] envHangEx).intervalActive = true ∧
    exceptOk (uploadAudio [1] [] [] envHangEx).result = false ∧
    (transcribeAudio transEnvOkEx).intervalCleared = true ∧
    (transcribeAudio transEnvFailEx).intervalCleared = true :=
  ⟨rfl, rfl, rfl, rfl, rfl, rfl⟩

/-! ### Claim C7 (corrected)

The source guard is `if (progress < 50) { progress += 5; emit(progress) }`
(lines 272-284): the fifth tick starts from 45, passes the guard, and
emits exactly 50 while the write is still in flight.  So the synthetic
ticks are capped AT 50, not strictly below it. -/

/-- Claim C7 counterexample: on a call whose write is still unresolved
after five ticks (here: the write eventually fails, so it never
resolved), the synthetic ticker has emitted an `uploading`-stage event
with progress exactly 50 — refuting "capped below 50 until the real
write resolves". -/
theorem synthetic_tick_reaches_50_in_flight :
    exceptOk (uploadAudio [1] [] [] envRejectFiveEx).result = false ∧
    tickEv (assignedKey envRejectFiveEx) 50 ∈ (uploadAudio [1] [] [] envRejectFiveEx).events := by
  constructor
  · rfl
  · show tickEv (assignedKey envRejectFiveEx) 50 ∈
      preEvents (assignedKey envRejectFiveEx) ++ ticksEmitted (assignedKey envRejectFiveEx) 25 5
    rw [ticksEmitted_25]
    simp [tickList, preEvents]

/-- Claim C7 amended: the synthetic interpolated ticks emitted while the
write is in flight are bounded and capped at 50 (not strictly below 50):
every tick value is at most 50, ticks stop once the value reaches 50
(at most five ticks ever emit), the first four ticks stay strictly below
50, and from the fifth tick on the value 50 itself is emitted even
though the write has not resolved. -/
theorem uploadAudio_ticks_capped_at_50 (key : String) (n : Nat) :
    ((ticksEmitted key 25 n).all fun e => decide (e.progress ≤ 50)) = true ∧
    ticksEmitted key 25 n = ticksEmitted key 25 (min n 5) ∧
    (n ≤ 4 → ((ticksEmitted key 25 n).all fun e => decide (e.progress < 50)) = true) ∧
    (5 ≤ n → tickEv key 50 ∈ ticksEmitted key 25 n) := by
  rw [ticksEmitted_25]
  have h5 : min n 5 = min (min n 5) 5 := by omega
  refine ⟨?_, by rw [ticksEmitted_25, ← h5], ?_, ?_⟩
  · have : min n 5 = 0 ∨ min n 5 = 1 ∨ min n 5 = 2 ∨ min n 5 = 3 ∨ min n 5 = 4 ∨
        min n 5 = 5 := by omega
    rcases this with h | h | h | h | h | h <;> rw [h] <;> simp [tickList, tickEv]
  · intro hn
    have : min n 5 = 0 ∨ min n 5 = 1 ∨ min n 5 = 2 ∨ min n 5 = 3 ∨ min n 5 = 4 := by omega
    rcases this with h | h | h | h | h <;> rw [h] <;> simp [tickList, tickEv]
  · intro hn
    have : min n 5 = 5 := by omega
    rw [this]
    simp [tickList]

theorem uploadAudio_ticks_capped_at_50_w :
    (((ticksEmitted "audio/k.webm" 25 7).all fun e => decide (e.progress ≤ 50)) = true) ∧
    (5 ≤ 7 → tickEv "audio/k.webm" 50 ∈ ticksEmitted "audio/k.webm" 25 7) :=
  ⟨(uploadAudio_ticks_capped_at_50 "audio/k.webm" 7).1,
   (uploadAudio_ticks_capped_at_50 "audio/k.webm" 7).2.2.2⟩

/-! ### Claim C4 -/

def stageIdx : Stage → Nat
  | .preparing => 0
  | .uploading => 1
  | .processing => 2
  | .complete => 3

/-- One admissible consecutive pair: stages never go backwards, and
within a stage the progress value never decreases. -/
def chainStep (a b : ProgressEvent) : Bool :=
  decide (stageIdx a.stage ≤ stageIdx b.stage) &&
  (!decide (stageIdx a.stage = stageIdx b.stage) || decide (a.progress ≤ b.progress))

def chainOk : List ProgressEvent → Bool
  | [] => true
  | _ :: [] => true
  | a :: b :: r => chainStep a b && chainOk (b :: r)

/-- Claim C4: within a single `uploadAudio` call the emitted progress
events are monotonically non-decreasing within each stage and visit the
stages in the order preparing → uploading → processing → complete (a
successful call visits exactly those four, in that order); every failing
call short-circuits before any `complete` event. -/
theorem uploadAudio_progress_ordered
    (data : List Nat) (history : List AudioFile) (store : Store) (env : UploadEnv) :
    chainOk (uploadAudio data history store env).events = true ∧
    (exceptOk (uploadAudio data history store env).result = false →
      ((uploadAudio data history store env).events.all fun e =>
        decide (e.stage ≠ Stage.complete)) = true) ∧
    (exceptOk (uploadAudio data history store env).result = true →
      ((uploadAudio data history store env).events.map fun e => e.stage).destutter (· ≠ ·) =
        [Stage.preparing, Stage.uploading, Stage.processing, Stage.complete]) := by
  obtain ⟨bn, fo, ni, ui, su, wu, ko, put⟩ := env
  unfold uploadAudio
  dsimp only
  split_ifs with hd hb
  · exact ⟨rfl, fun _ => rfl, fun hcon => by simp [exceptOk] at hcon⟩
  · exact ⟨rfl, fun _ => rfl, fun hcon => by simp [exceptOk] at hcon⟩
  · cases put with
    | resolves n =>
      dsimp only
      split_ifs with hn
      · have hmin : min n 5 = 0 ∨ min n 5 = 1 ∨ min n 5 = 2 ∨ min n 5 = 3 ∨
            min n 5 = 4 ∨ min n 5 = 5 := by omega
        refine ⟨?_, fun hcon => by simp [exceptOk] at hcon, fun _ => ?_⟩
        · dsimp only
          rw [ticksEmitted_25]
          by_cases hw : wu = "" <;>
            rcases hmin with h | h | h | h | h | h <;> rw [h] <;>
            simp [preEvents, tickList, tickEv, uploadDoneEv, processingEvents, hw,
              chainOk, chainStep, stageIdx]
        · dsimp only
          rw [ticksEmitted_25]
          by_cases hw : wu = "" <;>
            rcases hmin with h | h | h | h | h | h <;> rw [h] <;>
            simp [preEvents, tickList, tickEv, uploadDoneEv, processingEvents, hw,
              List.destutter, List.destutter', stageIdx]
      · refine ⟨?_, fun _ => ?_, fun hcon => by simp [exceptOk] at hcon⟩
        · dsimp only
          rw [ticksEmitted_25, show min 120 5 = 5 from rfl]
          simp [preEvents, tickList, tickEv, uploadDoneEv, chainOk, chainStep, stageIdx]
        · dsimp only
          rw [ticksEmitted_25, show min 120 5 = 5 from rfl]
          simp [preEvents, tickList, tickEv, uploadDoneEv]
    | rejects msg n =>
      dsimp only
      split_ifs with hn
      · have hmin : min n 5 = 0 ∨ min n 5 = 1 ∨ min n 5 = 2 ∨ min n 5 = 3 ∨
            min n 5 = 4 ∨ min n 5 = 5 := by omega
        refine ⟨?_, fun _ => ?_, fun hcon => by simp [exceptOk] at hcon⟩
        · dsimp only
          rw [ticksEmitted_25]
          rcases hmin with h | h | h | h | h | h <;> rw [h] <;>
            simp [preEvents, tickList, tickEv, chainOk, chainStep, stageIdx]
        · dsimp only
          rw [ticksEmitted_25]
          rcases hmin with h | h | h | h | h | h <;> rw [h] <;>
            simp [preEvents, tickList, tickEv]
      · refine ⟨?_, fun _ => ?_, fun hcon => by simp [exceptOk] at hcon⟩
        · dsimp only
          rw [ticksEmitted_25, show min 120 5 = 5 from rfl]
          simp [preEvents, tickList, tickEv, chainOk, chainStep, stageIdx]
        · dsimp only
          rw [ticksEmitted_25, show min 120 5 = 5 from rfl]
          simp [preEvents, tickList, tickEv]
    | hangs =>
      refine ⟨?_, fun _ => ?_, fun hcon => by simp [exceptOk] at hcon⟩
      · dsimp only
        rw [ticksEmitted_25, show min 120 5 = 5 from rfl]
        simp [preEvents, tickList, tickEv, chainOk, chainStep, stageIdx]
      · dsimp only
        rw [ticksEmitted_25, show min 120 5 = 5 from rfl]
        simp [preEvents, tickList, tickEv]

theorem uploadAudio_progress_ordered_w :
    chainOk (uploadAudio [1] [] [] envResolveEx).events = true ∧
    (((uploadAudio [1] [] [] envResolveEx).events.map fun e => e.stage).destutter (· ≠ ·) =
      [Stage.preparing, Stage.uploading, Stage.processing, Stage.complete]) :=
  ⟨(uploadAudio_progress_ordered [1] [] [] envResolveEx).1,
   (uploadAudio_progress_ordered [1] [] [] envResolveEx).2.2 rfl⟩

/-! ### Claim C8 (corrected)

The constructor's `forEach` (r2UploadService.ts lines 32-37) throws on
the FIRST missing required field, so its failure names one field, not
the list of all missing ones.  The `audio-data` handler's full-list
report (main process lines 84-91) sits behind the
`if (!r2UploadService)` guard (lines 74-78): when construction failed
the handler reports the generic "not initialized" status instead, and
when construction succeeded there is no missing field left to list. -/

lemma find?_eq_head_filter {α : Type} (p : α → Bool) (l : List α) :
    l.find? p = (l.filter p).head? := by
  induction l with
  | nil => rfl
  | cons a t ih =>
    cases h : p a
    · rw [List.find?_cons_of_neg _ (by simp [h]), List.filter_cons_of_neg (by simp [h]), ih]
    · rw [List.find?_cons_of_pos _ h, List.filter_cons_of_pos h, List.head?_cons]

/-- Claim C8 counterexample: with both `accountId` and `accessKeyId`
empty, the handler's notion of missing fields is the two-element list,
but the constructor failure message names only `accountId` — it does not
even mention `accessKeyId` — and an upload attempt against the failed
service yields the generic not-initialized status, not a named list. -/
theorem init_error_names_single_field :
    missingConfigKeys badConfigEx = ["accountId", "accessKeyId"] ∧
    serviceInit badConfigEx =
      .error "R2 service initialization failed: R2 configuration is missing accountId" ∧
    containsStr "R2 service initialization failed: R2 configuration is missing accountId"
      "accessKeyId" = false ∧
    audioDataPrecheck 5 false badConfigEx = some "Error: R2 upload service not initialized" :=
  ⟨rfl, rfl, rfl, rfl⟩

/-- Claim C8 amended: every required credential field is checked for
being non-empty before the store client is constructed (hence before any
network call), but a missing-field failure is reported by naming the
FIRST missing field in declaration order, not a list of all missing
fields; the handler report that does carry the full named list is
reachable only when the service initialized, i.e. when nothing is
missing. -/
theorem configCheck_first_missing_named (c : R2Config) :
    (missingConfigKeys c = [] → serviceInit c = .ok ()) ∧
    (∀ hd tl, missingConfigKeys c = hd :: tl →
      serviceInit c =
        .error ("R2 service initialization failed: R2 configuration is missing " ++ hd)) ∧
    (serviceInit c = .ok () → missingConfigKeys c = []) := by
  have hkey : serviceInit c =
      match ((requiredEntries c).filter (fun kv => kv.2 = "")).head? with
      | some kv =>
        .error ("R2 service initialization failed: R2 configuration is missing " ++ kv.1)
      | none => .ok () := by
    unfold serviceInit
    rw [find?_eq_head_filter]
  refine ⟨?_, ?_, ?_⟩
  · intro h0
    unfold missingConfigKeys at h0
    rw [List.map_eq_nil_iff] at h0
    rw [hkey, h0]
    rfl
  · intro hd tl heq
    unfold missingConfigKeys at heq
    cases hf : (requiredEntries c).filter (fun kv => kv.2 = "") with
    | nil => rw [hf] at heq; simp at heq
    | cons b rest =>
      rw [hf] at heq
      simp only [List.map_cons, List.cons.injEq] at heq
      obtain ⟨h1, -⟩ := heq
      rw [hkey, hf]
      simp [h1]
  · intro hok
    rw [hkey] at hok
    unfold missingConfigKeys
    cases hf : (requiredEntries c).filter (fun kv => kv.2 = "") with
    | nil => rfl
    | cons b rest => rw [hf] at hok; simp at hok

theorem configCheck_first_missing_named_w :
    serviceInit badConfigEx =
      .error ("R2 service initialization failed: R2 configuration is missing " ++ "accountId") :=
  (configCheck_first_missing_named badConfigEx).2.1 "accountId" ["accessKeyId"] rfl

/-! ### Claim C9 (corrected)

The handler clears the interval before sending the -1 sentinel on every
failure path (lines 284-287), so negative progress is the final word
there.  On the success path, however, progress 100 ("Finalizing
transcription...") is sent at line 262 — BEFORE `response.json()` is
awaited — while `clearProgressInterval()` only runs at line 272, after
the body is parsed; interval ticks firing in between emit synthetic
values (at most 95) after the 100 report. -/

def isSyntheticMsg (m : String) : Bool :=
  m == "Transcribing audio..." || m == "Processing transcription results..."

def syntheticEvents (l : List TransEvent) : List TransEvent :=
  l.filter fun e => isSyntheticMsg e.message

def stepFive : List TransEvent → Bool
  | [] => true
  | _ :: [] => true
  | a :: b :: r => (b.progress == a.progress + 5) && stepFive (b :: r)

lemma transTicks_succ (p n : Nat) :
    transTicks p (n + 1) =
      if p + 5 ≤ 95 then
        ((transTicks (p + 5) n).1,
          { progress := ((p + 5 : Nat) : Int),
            message := if p + 5 < 50 then "Transcribing audio..."
                       else "Processing transcription results..." } :: (transTicks (p + 5) n).2)
      else ((transTicks (p + 5) n).1, (transTicks (p + 5) n).2) := rfl

/-- Invariant of a synthetic tick run starting from value `p`: the
`progress` variable ends at `p + 5 n`, every sent event is
synthetic-messaged with value in `(p + 5) … 95`, consecutive sent values
differ by exactly 5, and the first sent value (if any) is `p + 5`. -/
lemma transTicks_spec (n : Nat) : ∀ p : Nat,
    (transTicks p n).1 = p + 5 * n ∧
    (∀ e ∈ (transTicks p n).2,
      isSyntheticMsg e.message = true ∧ (p : Int) + 5 ≤ e.progress ∧ e.progress ≤ 95) ∧
    stepFive (transTicks p n).2 = true ∧
    (∀ e ∈ (transTicks p n).2.head?, e.progress = (p : Int) + 5) := by
  induction n with
  | zero =>
    intro p
    refine ⟨by simp [transTicks], ?_, by simp [transTicks, stepFive], ?_⟩
    · intro e he
      simp [transTicks] at he
    · intro e he
      simp [transTicks] at he
  | succ n ih =>
    intro p
    obtain ⟨ih1, ih2, ih3, ih4⟩ := ih (p + 5)
    rw [transTicks_succ]
    by_cases h : p + 5 ≤ 95
    · rw [if_pos h]
      refine ⟨?_, ?_, ?_, ?_⟩
      · dsimp only
        rw [ih1]
        ring
      · intro e he
        rcases List.mem_cons.mp he with rfl | he'
        · refine ⟨?_, ?_, ?_⟩
          · by_cases h50 : p + 5 < 50 <;> simp [h50] <;> decide
          · show (p : Int) + 5 ≤ ((p + 5 : Nat) : Int)
            push_cast
            omega
          · show ((p + 5 : Nat) : Int) ≤ 95
            exact_mod_cast h
        · obtain ⟨hm, hlo, hhi⟩ := ih2 e he'
          refine ⟨hm, ?_, hhi⟩
          push_cast at hlo ⊢
          omega
      · dsimp only
        cases hevs : (transTicks (p + 5) n).2 with
        | nil => rfl
        | cons b rest =>
          have hb := ih4 b (by rw [hevs]; rfl)
          rw [hevs] at ih3
          rw [stepFive]
          rw [ih3, hb]
          simp
      · intro e he
        simp only [List.head?_cons, Option.mem_def, Option.some.injEq] at he
        subst he
        show ((p + 5 : Nat) : Int) = (p : Int) + 5
        push_cast
        ring
    · rw [if_neg h]
      refine ⟨?_, ?_, ?_, ?_⟩
      · dsimp only
        rw [ih1]
        ring
      · intro e he
        obtain ⟨hm, hlo, hhi⟩ := ih2 e he
        refine ⟨hm, ?_, hhi⟩
        push_cast at hlo ⊢
        omega
      · exact ih3
      · intro e he
        have hmem : e ∈ (transTicks (p + 5) n).2 := List.mem_of_mem_head? he
        obtain ⟨-, hlo, hhi⟩ := ih2 e hmem
        have he' := ih4 e he
        push_cast at hlo hhi he' ⊢
        omega

/-- Ticks compose: a run of `m + n` ticks is the run of the first `m`
followed by a run of `n` from the reached value (the interval keeps one
`progress` variable across the awaited fetch and the awaited body). -/
lemma transTicks_split (m n p : Nat) :
    (transTicks p (m + n)).2 =
      (transTicks p m).2 ++ (transTicks ((transTicks p m).1) n).2 := by
  induction m generalizing p with
  | zero => simp [transTicks]
  | succ m ih =>
    have harr : m + 1 + n = (m + n) + 1 := by omega
    rw [harr, transTicks_succ, transTicks_succ]
    by_cases h : p + 5 ≤ 95
    · rw [if_pos h, if_pos h]
      dsimp only
      rw [ih]
      simp
    · rw [if_neg h, if_neg h]
      dsimp only
      exact ih (p + 5)

lemma synth_append (a b : List TransEvent) :
    syntheticEvents (a ++ b) = syntheticEvents a ++ syntheticEvents b := by
  unfold syntheticEvents
  exact List.filter_append a b

lemma synth_pre : syntheticEvents [evInit, evConnect] = [] := by decide

lemma synth_failed : syntheticEvents [evFailed] = [] := by decide

lemma synth_final : syntheticEvents [evFinal] = [] := by decide

lemma synthTicks (p n : Nat) :
    syntheticEvents (transTicks p n).2 = (transTicks p n).2 := by
  unfold syntheticEvents
  rw [List.filter_eq_self]
  intro e he
  exact ((transTicks_spec n p).2.1 e he).1

lemma ticks_all_bounds (n : Nat) :
    ((transTicks 10 n).2.all fun e => decide (15 ≤ e.progress ∧ e.progress ≤ 95)) = true := by
  rw [List.all_eq_true]
  intro e he
  obtain ⟨-, hlo, hhi⟩ := (transTicks_spec n 10).2.1 e he
  rw [decide_eq_true_eq]
  exact ⟨by omega, hhi⟩

/-- Claim C9 counterexample: a transcription call whose HTTP response is
ok immediately (no tick during the fetch) but whose body parse spans one
interval tick succeeds, yet its LAST progress event is a synthetic 15 —
emitted after the progress-100 report — so the real terminal event does
not always supersede the synthetic feed. -/
theorem transcribe_synthetic_after_terminal :
    (transcribeAudio transEnvLateBodyEx).success = true ∧
    evFinal ∈ (transcribeAudio transEnvLateBodyEx).events ∧
    ((transcribeAudio transEnvLateBodyEx).events.getLast?.map fun e => e.progress) =
      some 15 := by
  refine ⟨rfl, ?_, rfl⟩
  show evFinal ∈ ([evInit, evConnect] ++ (transTicks 10 0).2) ++ [evFinal] ++
    (transTicks (transTicks 10 0).1 1).2
  simp

/-- Claim C9 amended: while awaiting the remote result the synthetic
feed increases by exactly 5 per tick and never exceeds 95 (every
synthetic value is in 15…95 and consecutive synthetic values differ by
5); on remote failure the interval is cleared and the negative sentinel
-1 is the last progress event; on remote success progress 100 is
reported when the HTTP response arrives, but the interval is cleared
only after the response body is parsed, so synthetic ticks (still at
most 95) may be emitted between the 100 report and the terminal status
event. -/
theorem transcribeAudio_progress_protocol (env : TransEnv) :
    ((syntheticEvents (transcribeAudio env).events).all fun e =>
      decide (15 ≤ e.progress ∧ e.progress ≤ 95)) = true ∧
    stepFive (syntheticEvents (transcribeAudio env).events) = true ∧
    ((transcribeAudio env).success = false →
      ((transcribeAudio env).events.getLast?.map fun e => e.progress) = some (-1)) ∧
    ((transcribeAudio env).success = true →
      evFinal ∈ (transcribeAudio env).events ∧
        (transcribeAudio env).intervalCleared = true) := by
  obtain ⟨ready, wu, key, n1, fetch⟩ := env
  unfold transcribeAudio
  dsimp only
  split_ifs with hr hw
  · exact ⟨by decide, by decide, fun _ => by decide, fun hcon => by simp at hcon⟩
  · exact ⟨by decide, by decide, fun _ => by decide, fun hcon => by simp at hcon⟩
  · cases fetch with
    | netErr m =>
      dsimp only
      have hsynth : syntheticEvents (([evInit, evConnect] ++ (transTicks 10 n1).2) ++ [evFailed]) =
          (transTicks 10 n1).2 := by
        simp only [synth_append, synth_pre, synth_failed, synthTicks,
          List.nil_append, List.append_nil]
      refine ⟨?_, ?_, fun _ => ?_, fun hcon => by simp at hcon⟩
      · rw [hsynth]
        exact ticks_all_bounds n1
      · rw [hsynth]
        exact (transTicks_spec n1 10).2.2.1
      · rw [List.getLast?_concat]
        rfl
    | httpErr status n2 errBody =>
      dsimp only
      have hsynth : syntheticEvents ((([evInit, evConnect] ++ (transTicks 10 n1).2) ++
          (transTicks ((transTicks 10 n1).1) n2).2) ++ [evFailed]) =
          (transTicks 10 (n1 + n2)).2 := by
        simp only [synth_append, synth_pre, synth_failed, synthTicks,
          List.nil_append, List.append_nil]
        exact (transTicks_split n1 n2 10).symm
      have hmain :
          ((syntheticEvents ((([evInit, evConnect] ++ (transTicks 10 n1).2) ++
            (transTicks ((transTicks 10 n1).1) n2).2) ++ [evFailed])).all fun e =>
              decide (15 ≤ e.progress ∧ e.progress ≤ 95)) = true ∧
          stepFive (syntheticEvents ((([evInit, evConnect] ++ (transTicks 10 n1).2) ++
            (transTicks ((transTicks 10 n1).1) n2).2) ++ [evFailed])) = true ∧
          ((((([evInit, evConnect] ++ (transTicks 10 n1).2) ++
            (transTicks ((transTicks 10 n1).1) n2).2) ++ [evFailed]).getLast?.map fun e =>
              e.progress) = some (-1)) := by
        refine ⟨?_, ?_, ?_⟩
        · rw [hsynth]
          exact ticks_all_bounds (n1 + n2)
        · rw [hsynth]
          exact (transTicks_spec (n1 + n2) 10).2.2.1
        · rw [List.getLast?_concat]
          rfl
      cases errBody with
      | none =>
        exact ⟨hmain.1, hmain.2.1, fun _ => hmain.2.2, fun hcon => by simp at hcon⟩
      | some errField =>
        dsimp only
        split_ifs with hc
        · exact ⟨hmain.1, hmain.2.1, fun _ => hmain.2.2, fun hcon => by simp at hcon⟩
        · exact ⟨hmain.1, hmain.2.1, fun _ => hmain.2.2, fun hcon => by simp at hcon⟩
    | ok n2 body =>
      dsimp only
      have hsynth : syntheticEvents ((([evInit, evConnect] ++ (transTicks 10 n1).2) ++ [evFinal]) ++
          (transTicks ((transTicks 10 n1).1) n2).2) = (transTicks 10 (n1 + n2)).2 := by
        simp only [synth_append, synth_pre, synth_failed, synth_final, synthTicks,
          List.nil_append, List.append_nil]
        exact (transTicks_split n1 n2 10).symm
      cases body with
      | error m =>
        dsimp only
        have hsynth2 : syntheticEvents (((([evInit, evConnect] ++ (transTicks 10 n1).2) ++ [evFinal]) ++
            (transTicks ((transTicks 10 n1).1) n2).2) ++ [evFailed]) =
            (transTicks 10 (n1 + n2)).2 := by
          rw [synth_append, hsynth, synth_failed, List.append_nil]
        refine ⟨?_, ?_, fun _ => ?_, fun hcon => by simp at hcon⟩
        · rw [hsynth2]
          exact ticks_all_bounds (n1 + n2)
        · rw [hsynth2]
          exact (transTicks_spec (n1 + n2) 10).2.2.1
        · rw [List.getLast?_concat]
          rfl
      | ok t =>
        dsimp only
        refine ⟨?_, ?_, fun hcon => by simp at hcon, fun _ => ⟨?_, rfl⟩⟩
        · rw [hsynth]
          exact ticks_all_bounds (n1 + n2)
        · rw [hsynth]
          exact (transTicks_spec (n1 + n2) 10).2.2.1
        · simp

theorem transcribeAudio_progress_protocol_w :
    (((syntheticEvents (transcribeAudio transEnvFailEx).events).all fun e =>
      decide (15 ≤ e.progress ∧ e.progress ≤ 95)) = true) ∧
    ((transcribeAudio transEnvFailEx).success = false →
      ((transcribeAudio transEnvFailEx).events.getLast?.map fun e => e.progress) =
        some (-1)) :=
  ⟨(transcribeAudio_progress_protocol transEnvFailEx).1,
   (transcribeAudio_progress_protocol transEnvFailEx).2.2.1⟩

end AudioRec
